import Mathlib

/-!
Shallow embedding of the claudify (TextToTrack) backend service:
the request-throttle queue (src/requestQueue.ts), the exponential-backoff
retry wrapper, the track resolver, the token lifecycle manager, the
pagination loop and the two HTTP entry flows (src/index.ts / utils.ts).

External I/O (the Spotify client, the language model, the file system) is
modelled by passing the responses those calls would return as explicit
function arguments; machine time is modelled by recording the delays the
code would sleep for.
-/

set_option maxRecDepth 4000

namespace Claudify

/-- A Spotify client error as seen by the retry wrapper: an HTTP status
code, the parsed value of the retry-after header when that header is
present and non-empty, and a message giving the error its identity. -/
structure SpotifyError where
  statusCode : Nat
  retryAfter : Option Nat
  message : String
deriving DecidableEq, Repr

/-- The delay chosen at a given retry count (utils.ts lines 12-14):
the server-specified retry-after value converted to milliseconds when the
header is present, else initialDelay * 2 ^ retries. -/
def backoffDelay (initialDelay retries : Nat) (e : SpotifyError) : Nat :=
  match e.retryAfter with
  | some n => n * 1000
  | none => initialDelay * 2 ^ retries

/-- The retry loop of exponentialBackoff (utils.ts lines 6-22).  The
attempts of the unit of work are modelled as a function from the attempt
index to its outcome.  Returns the final outcome together with the list
of delays slept between attempts. -/
def backoffFrom (fn : Nat → Except SpotifyError α) (maxRetries initialDelay retries : Nat) :
    Except SpotifyError α × List Nat :=
  match fn retries with
  | Except.ok a => (Except.ok a, [])
  | Except.error e =>
    if h : e.statusCode = 429 ∧ retries < maxRetries then
      let rest := backoffFrom fn maxRetries initialDelay (retries + 1)
      (rest.1, backoffDelay initialDelay retries e :: rest.2)
    else
      (Except.error e, [])
termination_by maxRetries - retries
decreasing_by exact Nat.sub_succ_lt_self maxRetries retries h.2

/-- exponentialBackoff with its default arguments maxRetries = 5 and
initialDelay = 1000 (utils.ts lines 1-5). -/
def exponentialBackoff (fn : Nat → Except SpotifyError α) : Except SpotifyError α × List Nat :=
  backoffFrom fn 5 1000 0

lemma backoffFrom_ok {fn : Nat → Except SpotifyError α} {k v} (h : fn k = Except.ok v)
    (m d : Nat) : backoffFrom fn m d k = (Except.ok v, []) := by
  rw [backoffFrom, h]

lemma backoffFrom_stop {fn : Nat → Except SpotifyError α} {k e} (h : fn k = Except.error e)
    (m d : Nat) (hc : ¬(e.statusCode = 429 ∧ k < m)) :
    backoffFrom fn m d k = (Except.error e, []) := by
  rw [backoffFrom, h]
  simp only [dif_neg hc]

lemma backoffFrom_retry {fn : Nat → Except SpotifyError α} {k e} (h : fn k = Except.error e)
    (m d : Nat) (h429 : e.statusCode = 429) (hlt : k < m) :
    backoffFrom fn m d k =
      ((backoffFrom fn m d (k + 1)).1, backoffDelay d k e :: (backoffFrom fn m d (k + 1)).2) := by
  rw [backoffFrom, h]
  simp only [dif_pos (And.intro h429 hlt)]

/-- C1: through the backoff wrapper, a 429 failure is retried up to 5
times, waiting the server-specified retry-after value (N seconds =
N * 1000 ms) when the hint is present and 1000 ms doubling per retry
otherwise; a non-429 failure propagates immediately with no retry; and
when all 6 attempts fail with 429 the failure of the final attempt is
re-thrown unchanged (in particular, when every attempt fails with the
same error, that original error is re-thrown unchanged). -/
theorem C1_exponentialBackoff_retry_policy (α : Type) :
    (∀ (fn : Nat → Except SpotifyError α) v, fn 0 = Except.ok v →
        exponentialBackoff fn = (Except.ok v, [])) ∧
    (∀ (fn : Nat → Except SpotifyError α) e, fn 0 = Except.error e → e.statusCode ≠ 429 →
        exponentialBackoff fn = (Except.error e, [])) ∧
    (∀ (fn : Nat → Except SpotifyError α) (errs : Nat → SpotifyError),
        (∀ k, k ≤ 5 → fn k = Except.error (errs k) ∧ (errs k).statusCode = 429) →
        exponentialBackoff fn =
          (Except.error (errs 5), (List.range 5).map (fun k => backoffDelay 1000 k (errs k)))) ∧
    (∀ (e : SpotifyError) n k, e.retryAfter = some n → backoffDelay 1000 k e = n * 1000) ∧
    (∀ (e : SpotifyError) k, e.retryAfter = none → backoffDelay 1000 k e = 1000 * 2 ^ k) ∧
    (∀ (fn : Nat → Except SpotifyError α) e, e.statusCode = 429 →
        (∀ k, k ≤ 5 → fn k = Except.error e) →
        (exponentialBackoff fn).1 = Except.error e) := by
  have exhaust : ∀ (fn : Nat → Except SpotifyError α) (errs : Nat → SpotifyError),
      (∀ k, k ≤ 5 → fn k = Except.error (errs k) ∧ (errs k).statusCode = 429) →
      exponentialBackoff fn =
        (Except.error (errs 5), (List.range 5).map (fun k => backoffDelay 1000 k (errs k))) := by
    intro fn errs h
    have h0 := h 0 (by norm_num)
    have h1 := h 1 (by norm_num)
    have h2 := h 2 (by norm_num)
    have h3 := h 3 (by norm_num)
    have h4 := h 4 (by norm_num)
    have h5 := h 5 (by norm_num)
    rw [exponentialBackoff,
      backoffFrom_retry h0.1 5 1000 h0.2 (by norm_num),
      backoffFrom_retry h1.1 5 1000 h1.2 (by norm_num),
      backoffFrom_retry h2.1 5 1000 h2.2 (by norm_num),
      backoffFrom_retry h3.1 5 1000 h3.2 (by norm_num),
      backoffFrom_retry h4.1 5 1000 h4.2 (by norm_num),
      backoffFrom_stop h5.1 5 1000 (by simp)]
    simp [List.range_succ]
  refine ⟨?_, ?_, exhaust, ?_, ?_, ?_⟩
  · intro fn v h
    rw [exponentialBackoff, backoffFrom_ok h]
  · intro fn e h hne
    rw [exponentialBackoff, backoffFrom_stop h 5 1000 (by simp [hne])]
  · intro e n k h
    simp [backoffDelay, h]
  · intro e k h
    simp [backoffDelay, h]
  · intro fn e h429 h
    rw [exhaust fn (fun _ => e) (fun k hk => ⟨h k hk, h429⟩)]

/-- Witness for C1 at a concrete unit of work failing every attempt with
the same 429 error and no retry-after hint: five exponentially doubling
delays, then the error re-thrown. -/
theorem C1_exponentialBackoff_retry_policy_witness :
    exponentialBackoff (fun _ => Except.error ⟨429, none, "rate limited"⟩ :
        Nat → Except SpotifyError Nat) =
      (Except.error ⟨429, none, "rate limited"⟩, [1000, 2000, 4000, 8000, 16000]) := by
  have h := (C1_exponentialBackoff_retry_policy Nat).2.2.1
    (fun _ => Except.error ⟨429, none, "rate limited"⟩)
    (fun _ => ⟨429, none, "rate limited"⟩)
    (fun k _ => ⟨rfl, rfl⟩)
  simpa [backoffDelay, List.range_succ] using h

/-! ## Request throttle (src/requestQueue.ts)

The RequestQueue object holds a FIFO list of queued closures and an
isProcessing flag.  `add` pushes a wrapped closure at the tail and calls
`process`; `process` returns at once when isProcessing is already set,
otherwise sets the flag and becomes the (unique) draining worker.  The
state machine below adds a ghost `workers` counter (how many process()
loops are past the guard) to express start-idempotence, and records the
observable events: execution of a unit and the 50 ms sleep after it. -/

structure QueueState (τ : Type) where
  queue : List τ
  isProcessing : Bool
  workers : Nat
deriving Repr

/-- Observable events of the throttle: a unit of work executing to
completion, and the worker sleeping for a number of milliseconds. -/
inductive QEvent (τ : Type) where
  | exec (t : τ)
  | wait (ms : Nat)
deriving Repr

/-- The state after `add` (requestQueue.ts lines 7-19): the unit is
pushed at the tail of the queue, and the synchronous call to
`process()` either returns at once (isProcessing already true) or
turns the caller into a new worker. -/
def enqueue (s : QueueState τ) (t : τ) : QueueState τ :=
  { queue := s.queue ++ [t],
    isProcessing := true,
    workers := if s.isProcessing then s.workers else s.workers + 1 }

/-- One atomic step of the throttle (requestQueue.ts lines 7-32). -/
inductive QStep : QueueState τ → List (QEvent τ) → QueueState τ → Prop where
  | add (s : QueueState τ) (t : τ) : QStep s [] (enqueue s t)
  | work (s : QueueState τ) (t : τ) (ts : List τ) (hq : s.queue = t :: ts)
      (hp : s.isProcessing = true) :
      QStep s [QEvent.exec t, QEvent.wait 50] { s with queue := ts }
  | finish (s : QueueState τ) (hq : s.queue = []) (hp : s.isProcessing = true) :
      QStep s [] { s with isProcessing := false, workers := s.workers - 1 }

/-- Finitely many steps, accumulating the emitted events in order. -/
inductive QSteps : QueueState τ → List (QEvent τ) → QueueState τ → Prop where
  | refl (s : QueueState τ) : QSteps s [] s
  | head {s s₁ s₂ : QueueState τ} {evs evs₁ : List (QEvent τ)}
      (h₁ : QStep s evs s₁) (h₂ : QSteps s₁ evs₁ s₂) : QSteps s (evs ++ evs₁) s₂

/-- The queue as constructed: empty, not processing, no worker. -/
def initState (τ : Type) : QueueState τ := ⟨[], false, 0⟩

/-- Ghost invariant: there is exactly one worker while isProcessing is
set and none otherwise. -/
def WorkerInv (s : QueueState τ) : Prop := s.workers = if s.isProcessing then 1 else 0

lemma workerInv_step {s s₂ : QueueState τ} {evs} (h : QStep s evs s₂)
    (hs : WorkerInv s) : WorkerInv s₂ := by
  cases h with
  | add t =>
    unfold WorkerInv enqueue at *
    cases hb : s.isProcessing <;> simp [hb] <;> simp [hb] at hs <;> omega
  | work t ts hq hp =>
    exact hs
  | finish hq hp =>
    unfold WorkerInv at *
    simp [hp] at hs
    simp [hs]

lemma workerInv_steps {s s₂ : QueueState τ} {evs} (h : QSteps s evs s₂)
    (hs : WorkerInv s) : WorkerInv s₂ := by
  induction h with
  | refl => exact hs
  | head h₁ _ ih => exact ih (workerInv_step h₁ hs)

/-- The trace an undisturbed worker produces while draining a queue:
each unit executes in FIFO order, followed by the fixed 50 ms sleep. -/
def drainTrace : List τ → List (QEvent τ)
  | [] => []
  | t :: ts => QEvent.exec t :: QEvent.wait 50 :: drainTrace ts

/-- The units executed in a trace, in order. -/
def execList : List (QEvent τ) → List τ
  | [] => []
  | QEvent.exec t :: evs => t :: execList evs
  | QEvent.wait _ :: evs => execList evs

lemma drain_run (ts : List τ) :
    QSteps (⟨ts, true, 1⟩ : QueueState τ) (drainTrace ts) ⟨[], false, 0⟩ := by
  induction ts with
  | nil =>
    have h := QSteps.head
      (QStep.finish (⟨[], true, 1⟩ : QueueState τ) rfl rfl) (QSteps.refl _)
    simpa [drainTrace] using h
  | cons t ts ih =>
    have h := QSteps.head (QStep.work (⟨t :: ts, true, 1⟩ : QueueState τ) t ts rfl rfl) ih
    simpa [drainTrace] using h

lemma execList_drainTrace (ts : List τ) : execList (drainTrace ts) = ts := by
  induction ts with
  | nil => rfl
  | cons t ts ih => simp [drainTrace, execList, ih]

/-- C2: the throttle never has more than one worker (so at most one
queued unit is in flight at a time); a call to add while the worker is
already draining does not start a second worker (idempotent start);
units enter the FIFO queue at the tail; and the single worker drains
the queue in FIFO order, sleeping the fixed 50 ms after each unit
settles and before the next one starts. -/
theorem C2_throttle_single_worker_fifo_delay (τ : Type) :
    (∀ (evs : List (QEvent τ)) (s : QueueState τ),
        QSteps (initState τ) evs s → s.workers ≤ 1) ∧
    (∀ (s : QueueState τ) (t : τ), s.isProcessing = true →
        (enqueue s t).workers = s.workers) ∧
    (∀ (s : QueueState τ) (t : τ), (enqueue s t).queue = s.queue ++ [t]) ∧
    (∀ ts : List τ,
        QSteps (⟨ts, true, 1⟩ : QueueState τ) (drainTrace ts) ⟨[], false, 0⟩) ∧
    (∀ ts : List τ, execList (drainTrace ts) = ts) ∧
    (∀ (t : τ) (ts : List τ),
        drainTrace (t :: ts) = QEvent.exec t :: QEvent.wait 50 :: drainTrace ts) := by
  refine ⟨?_, ?_, ?_, drain_run, execList_drainTrace, fun t ts => rfl⟩
  · intro evs s h
    have hinv : WorkerInv s := workerInv_steps h (by simp [initState, WorkerInv])
    rw [hinv]
    split <;> omega
  · intro s t hp
    simp [enqueue, hp]
  · intro s t
    rfl

/-- Witness for C2: the initial state reaches itself with at most one
worker, and an add against an already-draining state keeps the worker
count unchanged. -/
theorem C2_throttle_single_worker_fifo_delay_witness :
    (initState Nat).workers ≤ 1 ∧
      (enqueue (⟨[3], true, 1⟩ : QueueState Nat) 7).workers =
        (⟨[3], true, 1⟩ : QueueState Nat).workers :=
  ⟨(C2_throttle_single_worker_fifo_delay Nat).1 [] (initState Nat) (QSteps.refl _),
    (C2_throttle_single_worker_fifo_delay Nat).2.1 ⟨[3], true, 1⟩ 7 rfl⟩

/-- The closure that `add` pushes onto the queue (requestQueue.ts lines
9-16): it runs the unit of work through exponentialBackoff, resolves
the caller's promise with the result on success and rejects it with the
error on failure, and — because the try/catch around it swallows every
outcome — never throws itself.  The outer `Except Empty` layer records
that the closure has no failure channel of its own; the inner value is
how this unit's promise is settled for its caller. -/
def queuedClosure (fn : Nat → Except SpotifyError α) : Except Empty (Except SpotifyError α) :=
  Except.ok (exponentialBackoff fn).1

/-- C10: a failing unit of work never stops the worker — the wrapped
closure always returns normally, a failure only rejects that unit's own
promise, and the worker drains every queued unit (failing ones
included) in FIFO order. -/
theorem C10_failure_does_not_stop_worker (α : Type) :
    (∀ fn : Nat → Except SpotifyError α,
        queuedClosure fn = Except.ok (exponentialBackoff fn).1) ∧
    (∀ (fn : Nat → Except SpotifyError α) e,
        (exponentialBackoff fn).1 = Except.error e →
        queuedClosure fn = Except.ok (Except.error e)) ∧
    (∀ ts : List (Nat → Except SpotifyError α),
        QSteps (⟨ts, true, 1⟩ : QueueState (Nat → Except SpotifyError α))
            (drainTrace ts) ⟨[], false, 0⟩ ∧
          execList (drainTrace ts) = ts) := by
  refine ⟨fun fn => rfl, ?_, fun ts => ⟨drain_run ts, execList_drainTrace ts⟩⟩
  intro fn e h
  rw [queuedClosure, h]

/-- Witness for C10 at a unit that always fails with a non-429 error:
its closure still returns normally, carrying the rejection for the
caller's promise only. -/
theorem C10_failure_does_not_stop_worker_witness :
    queuedClosure (fun _ => Except.error ⟨503, none, "down"⟩ : Nat → Except SpotifyError Nat) =
      Except.ok (Except.error ⟨503, none, "down"⟩) :=
  (C10_failure_does_not_stop_worker Nat).2.1 _ _
    (by rw [exponentialBackoff, backoffFrom_stop rfl 5 1000 (by simp)])

/-! ## Token lifecycle manager (index.ts, refreshTokenIfNeeded) -/

/-- The persisted token record (interface TokenData). Timestamps are
milliseconds since the epoch, as produced by Date.now(). -/
structure TokenData where
  access_token : String
  refresh_token : String
  expires_at : Int
deriving DecidableEq, Repr

/-- The body of a successful refresh exchange (refreshAccessToken):
a new access token and its lifetime in seconds. -/
structure RefreshedToken where
  access_token : String
  expires_in : Int
deriving DecidableEq, Repr

/-- refreshTokenIfNeeded (index.ts lines 621-652) on the happy paths,
with I/O made explicit: `now` is Date.now(), `stored` the record read
from token.json, and `fresh` what the refresh exchange would return.
The result is the record written back to token.json (none when nothing
is rewritten) together with the access token set on the API client. -/
def refreshTokenIfNeeded (now : Int) (stored : TokenData) (fresh : RefreshedToken) :
    Option TokenData × String :=
  if now > stored.expires_at - 300000 then
    (some { access_token := fresh.access_token,
            refresh_token := stored.refresh_token,
            expires_at := now + fresh.expires_in * 1000 },
     fresh.access_token)
  else
    (none, stored.access_token)

/-- C4: a refresh is performed if and only if the current time is past
the stored expiry minus the 5-minute (300000 ms) safety margin; the
rewritten record keeps the original refresh token and changes only the
access token and the expiry; and when no refresh is needed the stored
record is not rewritten (the stored access token is set unchanged). -/
theorem C4_token_refresh_iff_within_margin (now : Int) (stored : TokenData)
    (fresh : RefreshedToken) :
    ((refreshTokenIfNeeded now stored fresh).1.isSome ↔
        now > stored.expires_at - 300000) ∧
    (∀ w, (refreshTokenIfNeeded now stored fresh).1 = some w →
        w.refresh_token = stored.refresh_token ∧
        w.access_token = fresh.access_token ∧
        w.expires_at = now + fresh.expires_in * 1000 ∧
        (refreshTokenIfNeeded now stored fresh).2 = fresh.access_token) ∧
    (¬ now > stored.expires_at - 300000 →
        (refreshTokenIfNeeded now stored fresh).1 = none ∧
        (refreshTokenIfNeeded now stored fresh).2 = stored.access_token) := by
  unfold refreshTokenIfNeeded
  split
  · next h =>
    refine ⟨by simpa using h, ?_, fun hn => absurd h hn⟩
    intro w hw
    simp only [Option.some.injEq] at hw
    subst hw
    exact ⟨rfl, rfl, rfl, rfl⟩
  · next h =>
    exact ⟨by simpa using h, fun w hw => by simp at hw, fun _ => ⟨rfl, rfl⟩⟩

/-- Witness for C4 at a token expiring within the margin: the refresh
fires, keeps the refresh token, and updates access token and expiry. -/
theorem C4_token_refresh_iff_within_margin_witness :
    (refreshTokenIfNeeded 1000000 ⟨"oldA", "keepR", 1200000⟩ ⟨"newA", 3600⟩).1 =
        some ⟨"newA", "keepR", 4600000⟩ ∧
      (refreshTokenIfNeeded 2000000 ⟨"oldA", "keepR", 9900000⟩ ⟨"newA", 3600⟩).1 = none := by
  have h₁ := C4_token_refresh_iff_within_margin 1000000 ⟨"oldA", "keepR", 1200000⟩ ⟨"newA", 3600⟩
  have h₂ := C4_token_refresh_iff_within_margin 2000000 ⟨"oldA", "keepR", 9900000⟩ ⟨"newA", 3600⟩
  refine ⟨?_, (h₂.2.2 (by decide)).1⟩
  have hs := h₁.1.mpr (by decide)
  match hm : (refreshTokenIfNeeded 1000000 ⟨"oldA", "keepR", 1200000⟩ ⟨"newA", 3600⟩).1 with
  | none => rw [hm] at hs; simp at hs
  | some w =>
    obtain ⟨hr, ha, he, _⟩ := h₁.2.1 w hm
    cases w
    simp only [Option.some.injEq, TokenData.mk.injEq]
    refine ⟨ha, hr, ?_⟩
    simp only at he
    omega

/-! ## Track resolver batching (index.ts, findTrackUris) -/

/-- A suggested song: title and artist (interface Song). -/
structure Song where
  title : String
  artist : String
deriving DecidableEq, Repr

/-- The batching loop of findTrackUris (index.ts lines 285-290) and of
the add-tracks loop (lines 399-405): consecutive slices of at most n
elements.  The source only runs it with the positive batch sizes 20 and
100; with n = 0 its for-loop would never advance, so that case is
guarded off here. -/
def sliceBatches : Nat → List α → List (List α)
  | _, [] => []
  | 0, _ :: _ => []
  | n + 1, x :: xs =>
    (x :: xs).take (n + 1) :: sliceBatches (n + 1) ((x :: xs).drop (n + 1))
termination_by _ l => l.length
decreasing_by
  simp only [List.length_drop, List.length_cons]
  omega

lemma sliceBatches_nil (n : Nat) : sliceBatches n ([] : List α) = [] := by
  rw [sliceBatches]

lemma sliceBatches_cons (n : Nat) (l : List α) (hl : l ≠ []) (hn : n ≠ 0) :
    sliceBatches n l = l.take n :: sliceBatches n (l.drop n) := by
  cases l with
  | nil => exact absurd rfl hl
  | cons x xs =>
    cases n with
    | zero => exact absurd rfl hn
    | succ m => rw [sliceBatches]

lemma sliceBatches_flatten_aux (n : Nat) (hn : n ≠ 0) :
    ∀ (k : Nat) (l : List α), l.length ≤ k → (sliceBatches n l).flatten = l := by
  intro k
  induction k with
  | zero =>
    intro l hl
    have he : l = [] := List.eq_nil_of_length_eq_zero (Nat.le_zero.mp hl)
    subst he
    simp [sliceBatches_nil]
  | succ k ih =>
    intro l hl
    by_cases he : l = []
    · subst he
      simp [sliceBatches_nil]
    · have hd : (l.drop n).length ≤ k := by
        simp only [List.length_drop]
        have h1 := Nat.pos_of_ne_zero hn
        have h2 := List.length_pos.mpr he
        omega
      rw [sliceBatches_cons n l he hn, List.flatten_cons, ih (l.drop n) hd,
        List.take_append_drop]

lemma sliceBatches_flatten (n : Nat) (hn : n ≠ 0) (l : List α) :
    (sliceBatches n l).flatten = l :=
  sliceBatches_flatten_aux n hn l.length l (Nat.le_refl _)

lemma sliceBatches_length_le_aux (n : Nat) :
    ∀ (k : Nat) (l : List α), l.length ≤ k → ∀ b ∈ sliceBatches n l, b.length ≤ n := by
  intro k
  induction k with
  | zero =>
    intro l hl
    have he : l = [] := List.eq_nil_of_length_eq_zero (Nat.le_zero.mp hl)
    subst he
    simp [sliceBatches_nil]
  | succ k ih =>
    intro l hl
    by_cases he : l = []
    · subst he
      simp [sliceBatches_nil]
    · by_cases hn : n = 0
      · subst hn
        cases l with
        | nil => exact absurd rfl he
        | cons x xs =>
          rw [sliceBatches]
          simp
      · have hd : (l.drop n).length ≤ k := by
          simp only [List.length_drop]
          have h1 := Nat.pos_of_ne_zero hn
          have h2 := List.length_pos.mpr he
          omega
        rw [sliceBatches_cons n l he hn]
        intro b hb
        rcases List.mem_cons.mp hb with hb | hb
        · subst hb
          exact List.length_take_le n l
        · exact ih (l.drop n) hd b hb

lemma sliceBatches_length_le (n : Nat) (l : List α) :
    ∀ b ∈ sliceBatches n l, b.length ≤ n :=
  sliceBatches_length_le_aux n l.length l (Nat.le_refl _)

/-- findTrackUris (index.ts lines 282-343) with the per-song resolution
(one exact search, optionally an artist search and a top-tracks pick)
abstracted as a function from the song to its resolved URI: the input is
cut into batches of at most 20, each batch is mapped over the per-song
resolution, and Promise.all plus results.flat() reassembles the
per-batch result arrays in batch order. -/
def findTrackUrisPure (resolve : Song → Option String) (songs : List Song) :
    List (Option String) :=
  ((sliceBatches 20 songs).map (fun batch => batch.map resolve)).flatten

/-- C5: the resolver returns one optional URI per input song, in input
order (it equals the plain map of the per-song resolution, so lengths
match); the batches are consecutive slices of at most 20 songs whose
concatenation is the input; and a 25-song input yields exactly two
batches, of sizes 20 and 5. -/
theorem C5_findTrackUris_length_and_batching :
    (∀ (resolve : Song → Option String) (songs : List Song),
        findTrackUrisPure resolve songs = songs.map resolve ∧
        (findTrackUrisPure resolve songs).length = songs.length) ∧
    (∀ songs : List Song,
        (sliceBatches 20 songs).flatten = songs ∧
        ∀ b ∈ sliceBatches 20 songs, b.length ≤ 20) ∧
    (∀ songs : List Song, songs.length = 25 →
        (sliceBatches 20 songs).map List.length = [20, 5]) := by
  refine ⟨?_, ?_, ?_⟩
  · intro resolve songs
    have h : findTrackUrisPure resolve songs = songs.map resolve := by
      unfold findTrackUrisPure
      rw [← List.map_flatten, sliceBatches_flatten 20 (by norm_num)]
    exact ⟨h, by rw [h, List.length_map]⟩
  · intro songs
    exact ⟨sliceBatches_flatten 20 (by norm_num) songs,
      sliceBatches_length_le 20 songs⟩
  · intro songs h
    have h1 : songs ≠ [] := by
      intro he
      rw [he] at h
      simp at h
    have h2 : songs.drop 20 ≠ [] := by
      intro he
      have := congrArg List.length he
      simp [h] at this
    have h3 : (songs.drop 20).drop 20 = [] := by
      apply List.drop_eq_nil_of_le
      simp [h]
    rw [sliceBatches_cons 20 songs h1 (by norm_num),
      sliceBatches_cons 20 (songs.drop 20) h2 (by norm_num), h3, sliceBatches_nil]
    simp [h]

/-- Witness for C5 on a concrete 25-song input: same-length output and
the 20 + 5 batch split. -/
theorem C5_findTrackUris_length_and_batching_witness :
    (findTrackUrisPure (fun _ => none) (List.replicate 25 ⟨"t", "a"⟩)).length = 25 ∧
      (sliceBatches 20 (List.replicate 25 (⟨"t", "a"⟩ : Song))).map List.length = [20, 5] := by
  refine ⟨?_, ?_⟩
  · have h := (C5_findTrackUris_length_and_batching.1 (fun _ => none)
      (List.replicate 25 ⟨"t", "a"⟩)).2
    simpa using h
  · exact C5_findTrackUris_length_and_batching.2.2 (List.replicate 25 ⟨"t", "a"⟩)
      (by simp)

/-! ## Liked-songs pagination (index.ts, getAllLikedSongs) -/

/-- A saved track as flattened by getAllLikedSongs (interface
LikedSong). -/
structure LikedSong where
  name : String
  artist : String
  id : String
deriving DecidableEq, Repr

/-- The do/while loop of getAllLikedSongs (index.ts lines 654-677),
with the API modelled as a function from the requested offset to the
page items and the total the platform reports.  The limit is the fixed
50 of the source.  `fuel` bounds the loop (none = fuel ran out, which
the source would only hit by looping forever); on success it returns
the concatenated tracks together with the list of offsets requested, in
request order. -/
def fetchLoopAux (fetch : Nat → List LikedSong × Nat) :
    Nat → Nat → List LikedSong → List Nat → Option (List LikedSong × List Nat)
  | 0, _, _, _ => none
  | fuel + 1, offset, acc, offs =>
    if offset + 50 < (fetch offset).2 then
      fetchLoopAux fetch fuel (offset + 50) (acc ++ (fetch offset).1) (offs ++ [offset])
    else
      some (acc ++ (fetch offset).1, offs ++ [offset])

/-- getAllLikedSongs: run the loop from offset 0 with an empty
accumulator. -/
def getAllLikedSongs (fetch : Nat → List LikedSong × Nat) (fuel : Nat) :
    Option (List LikedSong × List Nat) :=
  fetchLoopAux fetch fuel 0 [] []

lemma fetchLoopAux_spec (fetch : Nat → List LikedSong × Nat) :
    ∀ (fuel offset : Nat) (acc : List LikedSong) (offs : List Nat)
      (res : List LikedSong) (offsF : List Nat),
      fetchLoopAux fetch fuel offset acc offs = some (res, offsF) →
      ∃ m, offsF = offs ++ (List.range (m + 1)).map (fun i => offset + 50 * i) ∧
        res = acc ++
          ((List.range (m + 1)).map (fun i => (fetch (offset + 50 * i)).1)).flatten ∧
        (∀ i, i < m → offset + 50 * i + 50 < (fetch (offset + 50 * i)).2) ∧
        ¬ offset + 50 * m + 50 < (fetch (offset + 50 * m)).2 := by
  intro fuel
  induction fuel with
  | zero =>
    intro offset acc offs res offsF h
    simp [fetchLoopAux] at h
  | succ fuel ih =>
    intro offset acc offs res offsF h
    rw [fetchLoopAux] at h
    by_cases hc : offset + 50 < (fetch offset).2
    · rw [if_pos hc] at h
      obtain ⟨m, ho, hr, hcont, hstop⟩ :=
        ih (offset + 50) (acc ++ (fetch offset).1) (offs ++ [offset]) res offsF h
      have hoff : (List.range (m + 1 + 1)).map (fun i => offset + 50 * i) =
          offset :: (List.range (m + 1)).map (fun i => offset + 50 + 50 * i) := by
        rw [List.range_succ_eq_map, List.map_cons, List.map_map]
        simp only [Nat.mul_zero, Nat.add_zero]
        congr 1
        apply List.map_congr_left
        intro i _
        simp only [Function.comp_apply]
        omega
      have hpg : (List.range (m + 1 + 1)).map (fun i => (fetch (offset + 50 * i)).1) =
          (fetch offset).1 ::
            (List.range (m + 1)).map (fun i => (fetch (offset + 50 + 50 * i)).1) := by
        rw [List.range_succ_eq_map, List.map_cons, List.map_map]
        simp only [Nat.mul_zero, Nat.add_zero]
        congr 1
        apply List.map_congr_left
        intro i _
        simp only [Function.comp_apply]
        have harith : offset + 50 * Nat.succ i = offset + 50 + 50 * i := by omega
        rw [harith]
      refine ⟨m + 1, ?_, ?_, ?_, ?_⟩
      · rw [ho, hoff]
        simp [List.append_assoc]
      · rw [hr, hpg, List.flatten_cons]
        simp [List.append_assoc]
      · intro i hi
        cases i with
        | zero => simpa using hc
        | succ j =>
          have hj : j < m := Nat.lt_of_succ_lt_succ hi
          have harith : offset + 50 * (j + 1) = offset + 50 + 50 * j := by ring
          rw [harith]
          exact hcont j hj
      · have harith : offset + 50 * (m + 1) = offset + 50 + 50 * m := by ring
        rw [harith]
        exact hstop
    · rw [if_neg hc] at h
      simp only [Option.some.injEq, Prod.mk.injEq] at h
      obtain ⟨hr, ho⟩ := h
      refine ⟨0, ?_, ?_, by omega, by simpa using hc⟩
      · rw [← ho]
        simp [List.range_succ]
      · rw [← hr]
        simp [List.range_succ]

/-- C6: the liked-songs fetch pages with the fixed size 50 at the
successive offsets 0, 50, 100, ... until the next offset reaches the
reported total, concatenating the pages in request order; in
particular, for a platform constantly reporting total = 120 with pages
of 50, 50 and 20 items, exactly the 3 offsets 0, 50, 100 are requested
and the result is the in-order concatenation of length 120. -/
theorem C6_liked_songs_pagination :
    (∀ (fetch : Nat → List LikedSong × Nat) (fuel : Nat) (res : List LikedSong)
        (offsF : List Nat),
        getAllLikedSongs fetch fuel = some (res, offsF) →
        ∃ m, offsF = (List.range (m + 1)).map (fun i => 50 * i) ∧
          res = ((List.range (m + 1)).map (fun i => (fetch (50 * i)).1)).flatten ∧
          (∀ i, i < m → 50 * i + 50 < (fetch (50 * i)).2) ∧
          ¬ 50 * m + 50 < (fetch (50 * m)).2) ∧
    (∀ p0 p1 p2 : List LikedSong, p0.length = 50 → p1.length = 50 → p2.length = 20 →
        getAllLikedSongs
            (fun o => (if o = 0 then p0 else if o = 50 then p1 else p2, 120)) 5 =
          some (p0 ++ (p1 ++ p2), [0, 50, 100]) ∧
        (p0 ++ (p1 ++ p2)).length = 120) := by
  constructor
  · intro fetch fuel res offsF h
    obtain ⟨m, ho, hr, hcont, hstop⟩ := fetchLoopAux_spec fetch fuel 0 [] [] res offsF h
    refine ⟨m, ?_, ?_, ?_, ?_⟩
    · simpa using ho
    · simpa using hr
    · intro i hi
      simpa using hcont i hi
    · simpa using hstop
  · intro p0 p1 p2 h0 h1 h2
    refine ⟨?_, by simp [h0, h1, h2]⟩
    norm_num [getAllLikedSongs, fetchLoopAux]

/-- Witness for C6: three concrete pages of 50, 50 and 20 copies of a
song give exactly the 3 requests at offsets 0, 50, 100 and the in-order
concatenation. -/
theorem C6_liked_songs_pagination_witness :
    getAllLikedSongs
        (fun o =>
          (if o = 0 then List.replicate 50 ⟨"n", "a", "i"⟩
           else if o = 50 then List.replicate 50 ⟨"n", "a", "i"⟩
           else List.replicate 20 ⟨"n", "a", "i"⟩, 120)) 5 =
      some (List.replicate 50 ⟨"n", "a", "i"⟩ ++
        (List.replicate 50 ⟨"n", "a", "i"⟩ ++ List.replicate 20 ⟨"n", "a", "i"⟩),
        [0, 50, 100]) :=
  (C6_liked_songs_pagination.2 (List.replicate 50 ⟨"n", "a", "i"⟩)
    (List.replicate 50 ⟨"n", "a", "i"⟩) (List.replicate 20 ⟨"n", "a", "i"⟩)
    (by simp) (by simp) (by simp)).1

/-! ## Per-song resolution (index.ts, findTrackUris inner loop) -/

/-- A JavaScript value as it appears in the condition of index.ts line
302: either the item-count number produced by the optional chain, or
the boolean that the right operand `0 > 0` evaluates to. -/
inductive JSVal where
  | num (n : Nat)
  | bool (b : Bool)
deriving DecidableEq, Repr

/-- JavaScript truthiness of such a value: a number is truthy iff it
is non-zero, a boolean is its own truth value. -/
def truthy : JSVal → Bool
  | JSVal.num n => n != 0
  | JSVal.bool b => b

/-- The ?? operator: the left operand unless it is null/undefined. -/
def nullishOr (a : Option JSVal) (b : JSVal) : JSVal :=
  a.getD b

structure Track where
  uri : String
deriving DecidableEq, Repr

structure TracksPage where
  items : List Track
deriving DecidableEq, Repr

/-- The body of a searchTracks response; the tracks field may be
absent. -/
structure TrackSearchBody where
  tracks : Option TracksPage
deriving DecidableEq, Repr

structure Artist where
  id : String
deriving DecidableEq, Repr

structure ArtistsPage where
  items : List Artist
deriving DecidableEq, Repr

/-- The body of a searchArtists response; the artists field may be
absent. -/
structure ArtistSearchBody where
  artists : Option ArtistsPage
deriving DecidableEq, Repr

/-- The condition of index.ts line 302,
`exactSearch.body.tracks?.items.length ?? 0 > 0`: by operator
precedence this parses as `(tracks?.items.length) ?? (0 > 0)`, and the
enclosing if-statement takes the truthiness of the resulting value. -/
def exactFoundCond (body : TrackSearchBody) : Bool :=
  truthy (nullishOr (body.tracks.map (fun t => JSVal.num t.items.length))
    (JSVal.bool (decide (0 > 0))))

/-- The condition of index.ts line 312,
`artistSearch.body.artists?.items.length ?? 0 > 0`, of the same
shape. -/
def artistFoundCond (body : ArtistSearchBody) : Bool :=
  truthy (nullishOr (body.artists.map (fun a => JSVal.num a.items.length))
    (JSVal.bool (decide (0 > 0))))

/-- One song's resolution (index.ts lines 296-334): try the exact
title+artist search and, when its condition holds, return the first
item's uri; otherwise search by artist name, and when that condition
holds, fetch the artist's top tracks and return the one at the random
index Math.floor(random * min(5, length)), passed here as
`randomIndex`; otherwise resolve to undefined. -/
def resolveSong (exact : TrackSearchBody) (artist : ArtistSearchBody)
    (topTracks : List Track) (randomIndex : Nat) : Option String :=
  if exactFoundCond exact then
    (exact.tracks.bind (fun t => t.items.head?)).map Track.uri
  else if artistFoundCond artist then
    if 0 < topTracks.length then
      (topTracks[randomIndex]?).map Track.uri
    else none
  else none

/-- C3 counterexample: for a search response whose tracks field is
present with item count 0, the exact-match condition is false (the
condition value is the number 0, which is falsy), and the resolver
takes the artist-name fallback — not the found branch the claim
asserts. -/
theorem C3_counterexample_zero_count_falls_back :
    exactFoundCond ⟨some ⟨[]⟩⟩ = false ∧
      resolveSong ⟨some ⟨[]⟩⟩ ⟨some ⟨[⟨"artist1"⟩]⟩⟩ [⟨"spotify:track:top0"⟩] 0 =
        some "spotify:track:top0" := by
  constructor
  · rfl
  · rfl

/-- C3 amended: the exact-match condition does evaluate as
`count ?? (0 > 0)` by precedence, but the if-statement coerces the
resulting value by JavaScript truthiness, so the found branch is taken
iff the tracks field is present with a non-zero item count; with the
field present and count 0 (and likewise with the field absent) the
resolver proceeds to the artist-name fallback. -/
theorem C3_exact_match_condition :
    (∀ body : TrackSearchBody,
        exactFoundCond body = true ↔
          ∃ pg, body.tracks = some pg ∧ 0 < pg.items.length) ∧
    (∀ (artist : ArtistSearchBody) (tt : List Track) (r : Nat) (pg : TracksPage),
        pg.items.length = 0 →
        resolveSong ⟨some pg⟩ artist tt r =
          (if artistFoundCond artist then
            if 0 < tt.length then (tt[r]?).map Track.uri else none
          else none)) ∧
    (∀ exact : TrackSearchBody, exact.tracks = none → exactFoundCond exact = false) := by
  have hchar : ∀ body : TrackSearchBody,
      exactFoundCond body = true ↔ ∃ pg, body.tracks = some pg ∧ 0 < pg.items.length := by
    intro body
    cases hb : body.tracks with
    | none =>
      simp [exactFoundCond, nullishOr, truthy, hb]
    | some pg =>
      simp [exactFoundCond, nullishOr, truthy, hb]
      exact Iff.symm List.length_pos
  refine ⟨hchar, ?_, ?_⟩
  · intro artist tt r pg hlen
    have hf : exactFoundCond ⟨some pg⟩ = false := by
      rw [Bool.eq_false_iff]
      intro htr
      obtain ⟨pg2, hpg2, hpos⟩ := (hchar ⟨some pg⟩).mp htr
      simp only [Option.some.injEq] at hpg2
      subst hpg2
      omega
    rw [resolveSong, hf]
    simp
  · intro exact he
    simp [exactFoundCond, nullishOr, truthy, he]

/-- Witness for C3's amended statement: a one-item response satisfies
the found condition; an explicit zero-count-present response with a
found artist resolves through the fallback. -/
theorem C3_exact_match_condition_witness :
    exactFoundCond ⟨some ⟨[⟨"u0"⟩]⟩⟩ = true ∧
      resolveSong ⟨some ⟨[]⟩⟩ ⟨none⟩ [] 3 =
        (if artistFoundCond ⟨none⟩ then
          (if 0 < ([] : List Track).length then (([] : List Track)[3]?).map Track.uri
           else none)
        else none) :=
  ⟨(C3_exact_match_condition.1 ⟨some ⟨[⟨"u0"⟩]⟩⟩).mpr ⟨⟨[⟨"u0"⟩]⟩, rfl, by decide⟩,
    C3_exact_match_condition.2.1 ⟨none⟩ [] 3 ⟨[]⟩ rfl⟩

/-! ## Playlist sanitization (index.ts, sanitizePlaylistData) -/

/-- A suggested playlist (interface Playlist).  Name and description
are modelled as character lists so that trimming and slicing can be
stated positionally. -/
structure Playlist where
  name : List Char
  description : List Char
  songs : List Song
deriving DecidableEq, Repr

/-- The character class removed by String.prototype.trim: JavaScript
WhiteSpace and LineTerminator code points (the exotic Unicode
space-separator code points beyond these behave the same way and are
interchangeable for every statement below). -/
def isJsSpace (c : Char) : Bool :=
  c.toNat = 0x20 || c.toNat = 0x09 || c.toNat = 0x0A || c.toNat = 0x0B ||
    c.toNat = 0x0C || c.toNat = 0x0D || c.toNat = 0xA0 || c.toNat = 0xFEFF ||
    c.toNat = 0x2028 || c.toNat = 0x2029

/-- String.prototype.trim: drop that class from both ends. -/
def jsTrim (s : List Char) : List Char :=
  ((s.dropWhile isJsSpace).reverse.dropWhile isJsSpace).reverse

/-- sanitizePlaylistData (index.ts lines 345-351): trim, then
slice(0, 100) for the name and slice(0, 300) for the description. -/
def sanitizePlaylistData (p : Playlist) : Playlist :=
  { name := (jsTrim p.name).take 100,
    description := (jsTrim p.description).take 300,
    songs := p.songs }

/-- The (name, description) arguments of the createPlaylist call in the
bulk flow (index.ts lines 382-394): those of the sanitized playlist. -/
def bulkCreateArgs (p : Playlist) : List Char × List Char :=
  ((sanitizePlaylistData p).name, (sanitizePlaylistData p).description)

/-- The (name, description) arguments of the createPlaylist call in
the custom-prompt flow (index.ts lines 533-538): the playlist's fields
exactly as returned by the language model — the handler never calls
sanitizePlaylistData. -/
def customCreateArgs (p : Playlist) : List Char × List Char :=
  (p.name, p.description)

/-- A playlist whose name exceeds 100 characters and whose description
exceeds 300. -/
def overlongPlaylist : Playlist :=
  { name := List.replicate 101 'a',
    description := List.replicate 301 'd',
    songs := [] }

/-- C9 counterexample: in the custom-prompt flow the playlist is
created with a 101-character name and a 301-character description —
nothing is trimmed or truncated there, while the bulk flow would have
cut the same playlist to 100 and 300. -/
theorem C9_counterexample_custom_flow_not_sanitized :
    (customCreateArgs overlongPlaylist).1.length = 101 ∧
      (customCreateArgs overlongPlaylist).2.length = 301 ∧
      (bulkCreateArgs overlongPlaylist).1.length = 100 ∧
      (bulkCreateArgs overlongPlaylist).2.length = 300 := by
  refine ⟨?_, ?_, ?_, ?_⟩
  · show overlongPlaylist.name.length = 101
    rw [overlongPlaylist, List.length_replicate]
  · show overlongPlaylist.description.length = 301
    rw [overlongPlaylist, List.length_replicate]
  · show ((jsTrim overlongPlaylist.name).take 100).length = 100
    have ht : jsTrim overlongPlaylist.name = List.replicate 101 'a' := by decide
    rw [ht, List.length_take, List.length_replicate]
    omega
  · show ((jsTrim overlongPlaylist.description).take 300).length = 300
    have ht : jsTrim overlongPlaylist.description = List.replicate 301 'd' := by decide
    rw [ht, List.length_take, List.length_replicate]
    omega

/-- C9 amended: only the bulk flow sanitizes — there the created
playlist's name and description are the trimmed fields truncated to at
most 100 / 300 characters (exactly 100 / 300 whenever the trimmed
field reaches those lengths) — while the custom-prompt flow passes the
model-provided name and description to playlist creation unchanged. -/
theorem C9_sanitization_bulk_flow_only (p : Playlist) :
    (bulkCreateArgs p).1 = (jsTrim p.name).take 100 ∧
    (bulkCreateArgs p).2 = (jsTrim p.description).take 300 ∧
    (bulkCreateArgs p).1.length ≤ 100 ∧
    (bulkCreateArgs p).2.length ≤ 300 ∧
    (100 ≤ (jsTrim p.name).length → (bulkCreateArgs p).1.length = 100) ∧
    (300 ≤ (jsTrim p.description).length → (bulkCreateArgs p).2.length = 300) ∧
    (customCreateArgs p).1 = p.name ∧
    (customCreateArgs p).2 = p.description := by
  refine ⟨rfl, rfl, ?_, ?_, ?_, ?_, rfl, rfl⟩
  · exact List.length_take_le 100 (jsTrim p.name)
  · exact List.length_take_le 300 (jsTrim p.description)
  · intro h
    simp [bulkCreateArgs, sanitizePlaylistData, List.length_take]
    omega
  · intro h
    simp [bulkCreateArgs, sanitizePlaylistData, List.length_take]
    omega

/-- Witness for C9's amended statement at the overlong playlist: the
bulk-flow name is cut to exactly 100 characters while the custom flow
keeps all 101. -/
theorem C9_sanitization_bulk_flow_only_witness :
    (bulkCreateArgs overlongPlaylist).1.length = 100 ∧
      (customCreateArgs overlongPlaylist).1 = List.replicate 101 'a' :=
  ⟨(C9_sanitization_bulk_flow_only overlongPlaylist).2.2.2.2.1 (by decide),
    (C9_sanitization_bulk_flow_only overlongPlaylist).2.2.2.2.2.2.1⟩

/-! ## Bulk flow (/preview-playlists handler, index.ts lines 353-507) -/

/-- The environment one playlist of the bulk flow runs against: the
per-song resolver outcomes, the result the createPlaylist call would
return, and whether the i-th addTracksToPlaylist batch call would
succeed. -/
structure PlaylistRun where
  resolved : List (Option String)
  createResult : Except SpotifyError String
  addOk : Nat → Bool

/-- The per-playlist outcome observable in the handler loop: skipped
before creation (zero valid tracks, `continue`), failed inside the try
(caught and logged, loop continues), or created and fully populated
(its id is pushed onto createdPlaylistIds and its embed rendered). -/
inductive POutcome where
  | skipped
  | failed
  | created (id : String)
deriving DecidableEq, Repr

/-- `trackUris.filter((uri): uri is string => uri !== undefined)`. -/
def validUris (r : PlaylistRun) : List String :=
  r.resolved.filterMap id

/-- The body of the per-playlist loop (index.ts lines 365-428). -/
def processPlaylist (r : PlaylistRun) : POutcome :=
  if validUris r = [] then POutcome.skipped
  else
    match r.createResult with
    | Except.error _ => POutcome.failed
    | Except.ok pid =>
      if (List.range (sliceBatches 100 (validUris r)).length).all (fun i => r.addOk i) then
        POutcome.created pid
      else POutcome.failed

/-- Whether the loop body reaches the createPlaylist call for this
playlist: it does exactly when the valid-track list is non-empty (the
zero-track `continue` fires first). -/
def createAttempted (r : PlaylistRun) : Bool :=
  !(validUris r).isEmpty

/-- createdPlaylistIds at the end of the loop. -/
def createdIds (runs : List PlaylistRun) : List String :=
  (runs.map processPlaylist).filterMap (fun o =>
    match o with
    | POutcome.created pid => some pid
    | _ => none)

/-- The HTTP status of the handler: 500 via the thrown
"No valid playlists could be created" when nothing was created, 200
otherwise. -/
def previewPlaylistsStatus (runs : List PlaylistRun) : Nat :=
  if createdIds runs = [] then 500 else 200

/-- C7: a playlist none of whose songs resolve is skipped without a
createPlaylist call; each playlist's outcome is independent of the
others and a playlist-level failure leaves the rest of the loop
untouched; the overall response is 500 exactly when zero playlists
were created; and with 6 suggested playlists of which exactly one
resolves to zero valid tracks, exactly 5 are created and the response
is 200. -/
theorem C7_bulk_flow_skips_and_overall_failure :
    (∀ r : PlaylistRun, r.resolved.all Option.isNone →
        processPlaylist r = POutcome.skipped ∧ createAttempted r = false) ∧
    (∀ (r : PlaylistRun) e, r.createResult = Except.error e →
        createAttempted r = true → processPlaylist r = POutcome.failed) ∧
    (∀ (pre post : List PlaylistRun) (r : PlaylistRun),
        createdIds (pre ++ r :: post) =
          createdIds pre ++ (createdIds [r] ++ createdIds post)) ∧
    (∀ runs : List PlaylistRun,
        (previewPlaylistsStatus runs = 500 ↔ createdIds runs = [])) ∧
    (∀ (g1 g2 g3 g4 g5 z : PlaylistRun) (i1 i2 i3 i4 i5 : String),
        processPlaylist g1 = POutcome.created i1 →
        processPlaylist g2 = POutcome.created i2 →
        processPlaylist g3 = POutcome.created i3 →
        processPlaylist g4 = POutcome.created i4 →
        processPlaylist g5 = POutcome.created i5 →
        z.resolved.all Option.isNone →
        createdIds [g1, g2, g3, z, g4, g5] = [i1, i2, i3, i4, i5] ∧
        (createdIds [g1, g2, g3, z, g4, g5]).length = 5 ∧
        previewPlaylistsStatus [g1, g2, g3, z, g4, g5] = 200) := by
  have hskip : ∀ r : PlaylistRun, r.resolved.all Option.isNone →
      processPlaylist r = POutcome.skipped ∧ createAttempted r = false := by
    intro r hr
    have hv : validUris r = [] := by
      rw [validUris, List.filterMap_eq_nil_iff]
      intro o ho
      have := List.all_eq_true.mp hr o ho
      simp [Option.isNone_iff_eq_none.mp this]
    exact ⟨by rw [processPlaylist, if_pos hv], by rw [createAttempted, hv]; rfl⟩
  refine ⟨hskip, ?_, ?_, ?_, ?_⟩
  · intro r e hc ha
    have hv : ¬ validUris r = [] := by
      rw [createAttempted] at ha
      intro hnil
      rw [hnil] at ha
      simp at ha
    rw [processPlaylist, if_neg hv, hc]
  · intro pre post r
    have hsplit : pre ++ r :: post = (pre ++ [r]) ++ post := by simp
    rw [createdIds, hsplit, List.map_append, List.map_append, List.filterMap_append,
      List.filterMap_append, List.append_assoc]
    rfl
  · intro runs
    rw [previewPlaylistsStatus]
    split
    · next h => simp [h]
    · next h => simp [h]
  · intro g1 g2 g3 g4 g5 z i1 i2 i3 i4 i5 h1 h2 h3 h4 h5 hz
    have hzs := (hskip z hz).1
    have hlist : createdIds [g1, g2, g3, z, g4, g5] = [i1, i2, i3, i4, i5] := by
      simp [createdIds, h1, h2, h3, h4, h5, hzs]
    refine ⟨hlist, by rw [hlist]; rfl, ?_⟩
    rw [previewPlaylistsStatus, if_neg (by rw [hlist]; simp)]

/-- Witness for C7 with five concrete creatable playlists and one whose
two songs both fail to resolve: exactly the five ids come back and the
response is 200. -/
theorem C7_bulk_flow_skips_and_overall_failure_witness :
    createdIds [⟨[some "u1"], Except.ok "p1", fun _ => true⟩,
        ⟨[some "u2"], Except.ok "p2", fun _ => true⟩,
        ⟨[some "u3"], Except.ok "p3", fun _ => true⟩,
        ⟨[none, none], Except.ok "pz", fun _ => true⟩,
        ⟨[some "u4"], Except.ok "p4", fun _ => true⟩,
        ⟨[some "u5"], Except.ok "p5", fun _ => true⟩] = ["p1", "p2", "p3", "p4", "p5"] ∧
      previewPlaylistsStatus [⟨[some "u1"], Except.ok "p1", fun _ => true⟩,
        ⟨[some "u2"], Except.ok "p2", fun _ => true⟩,
        ⟨[some "u3"], Except.ok "p3", fun _ => true⟩,
        ⟨[none, none], Except.ok "pz", fun _ => true⟩,
        ⟨[some "u4"], Except.ok "p4", fun _ => true⟩,
        ⟨[some "u5"], Except.ok "p5", fun _ => true⟩] = 200 := by
  have hgood : ∀ u pid, processPlaylist ⟨[some u], Except.ok pid, fun _ => true⟩ =
      POutcome.created pid := by
    intro u pid
    rw [processPlaylist]
    rw [if_neg (by simp [validUris])]
    simp
  have h := (C7_bulk_flow_skips_and_overall_failure.2.2.2.2
    ⟨[some "u1"], Except.ok "p1", fun _ => true⟩
    ⟨[some "u2"], Except.ok "p2", fun _ => true⟩
    ⟨[some "u3"], Except.ok "p3", fun _ => true⟩
    ⟨[some "u4"], Except.ok "p4", fun _ => true⟩
    ⟨[some "u5"], Except.ok "p5", fun _ => true⟩
    ⟨[none, none], Except.ok "pz", fun _ => true⟩
    "p1" "p2" "p3" "p4" "p5"
    (hgood "u1" "p1") (hgood "u2" "p2") (hgood "u3" "p3") (hgood "u4" "p4")
    (hgood "u5" "p5") (by simp))
  exact ⟨h.1, h.2.2⟩

/-! ## Custom flow (/create-custom-playlist handler, index.ts lines 509-619)

The outbound calls the route can make, in program order.  Per the
spec's scope, the streaming-platform client is the capability set
{search tracks, search artists, artist top tracks, create playlist,
add tracks, saved tracks}; the token-refresh exchange performed by the
middleware (index.ts lines 104-117) and by the handler prelude (line
511) belongs to the Token Lifecycle Manager and is modelled as its own
event. -/

inductive ApiCall where
  | tokenRefresh
  | llm
  | searchTracks
  | searchArtists
  | artistTopTracks
  | createPlaylist
  | addTracks
  | savedTracks
deriving DecidableEq, Repr

/-- `!userPrompt` on the request body's prompt field: truthiness of a
possibly-missing string — true when the field is absent or the empty
string. -/
def promptFalsy (p : Option String) : Bool :=
  match p with
  | none => true
  | some s => s == ""

/-- The search-related responses one song's resolution runs against. -/
structure SongEnv where
  exact : TrackSearchBody
  artist : ArtistSearchBody
  topTracks : List Track
  randomIndex : Nat

/-- One song's resolved URI under its environment. -/
def resolveSongEnv (e : SongEnv) : Option String :=
  resolveSong e.exact e.artist e.topTracks e.randomIndex

/-- The platform calls one song's resolution issues (index.ts lines
296-334): always the exact search; on its failure the artist search;
and on a found artist the top-tracks lookup. -/
def songCalls (e : SongEnv) : List ApiCall :=
  ApiCall.searchTracks ::
    (if exactFoundCond e.exact then []
     else ApiCall.searchArtists ::
       (if artistFoundCond e.artist then [ApiCall.artistTopTracks] else []))

/-- The environment of one custom-flow request: the playlist the
language model would return, each song's search environment, and the id
createPlaylist would return. -/
structure CustomEnv where
  playlist : Playlist
  songEnv : Song → SongEnv
  createdId : String

/-- The /create-custom-playlist handler body after the token check
(index.ts lines 513-613): 400 with no further calls when the prompt is
falsy; otherwise the language-model call, the per-song searches, then
404 when no track resolved, else createPlaylist and one addTracks
call.  Returns the HTTP status and the calls made, in order. -/
def createCustomPlaylist (prompt : Option String) (env : CustomEnv) :
    Nat × List ApiCall :=
  if promptFalsy prompt then (400, [])
  else
    let songs := env.playlist.songs
    let uris := findTrackUrisPure (fun s => resolveSongEnv (env.songEnv s)) songs
    let calls := ApiCall.llm :: (songs.map (fun s => songCalls (env.songEnv s))).flatten
    if uris.filterMap id = [] then (404, calls)
    else (200, calls ++ [ApiCall.createPlaylist, ApiCall.addTracks])

/-- The whole route: the middleware's refresh check and the handler's
own refreshTokenIfNeeded call run first (each issuing a token-refresh
exchange only when within the expiry margin), then the handler body. -/
def customRoute (needs1 needs2 : Bool) (prompt : Option String) (env : CustomEnv) :
    Nat × List ApiCall :=
  let pre := (if needs1 then [ApiCall.tokenRefresh] else []) ++
    (if needs2 then [ApiCall.tokenRefresh] else [])
  ((createCustomPlaylist prompt env).1, pre ++ (createCustomPlaylist prompt env).2)

/-- C8: a custom-playlist request whose prompt is missing or empty gets
status 400, and before that response no language-model call and no
streaming-platform capability call (search, top tracks, create, add,
saved tracks) is made — every call preceding the response, if any, is a
token-refresh exchange of the token lifecycle manager. -/
theorem C8_empty_prompt_400_no_calls (needs1 needs2 : Bool) (prompt : Option String)
    (env : CustomEnv) (h : promptFalsy prompt = true) :
    (customRoute needs1 needs2 prompt env).1 = 400 ∧
      ApiCall.llm ∉ (customRoute needs1 needs2 prompt env).2 ∧
      ∀ c ∈ (customRoute needs1 needs2 prompt env).2, c = ApiCall.tokenRefresh := by
  rw [customRoute, createCustomPlaylist]
  simp only [if_pos h]
  cases needs1 <;> cases needs2 <;> simp

/-- Witness for C8 at a concrete request with prompt = "" and an
expiring token: the response is 400 and the only preceding call is the
token refresh. -/
theorem C8_empty_prompt_400_no_calls_witness :
    (customRoute true false (some "")
        ⟨⟨[], [], []⟩, fun _ => ⟨⟨none⟩, ⟨none⟩, [], 0⟩, "pid"⟩).1 = 400 ∧
      ApiCall.llm ∉ (customRoute true false (some "")
        ⟨⟨[], [], []⟩, fun _ => ⟨⟨none⟩, ⟨none⟩, [], 0⟩, "pid"⟩).2 :=
  have h := C8_empty_prompt_400_no_calls true false (some "")
    ⟨⟨[], [], []⟩, fun _ => ⟨⟨none⟩, ⟨none⟩, [], 0⟩, "pid"⟩ rfl
  ⟨h.1, h.2.1⟩

end Claudify
